import Mathlib

/-!
Verification of the marketing-campaign-dashboard core (src/app.py) against its
specification.  The campaign-level dataframe is embedded as a list of `Campaign`
records; pandas column operations (`mean`, `sum`, `quantile`, boolean-mask
filtering, `iloc`) are embedded as executable functions on lists of rationals.
Pandas returns floating NaN for the mean or quantile of an empty series; the
embedding models that undefined value as `Option.none`.
-/

/-- One row of the campaign-level gold table `marketing_gold.gold_campaign_agg`,
with the columns src/app.py consumes: `campaign_id`, `campaign_type`,
`conversion_rate`, `cac`, `roi_percent`, `clicks`. -/
structure Campaign where
  campaign_id : Int
  campaign_type : String
  conversion_rate : ℚ
  cac : ℚ
  roi_percent : ℚ
  clicks : ℕ
deriving DecidableEq, Repr

/-- One alert record appended by `campaign_alerts` in src/app.py. -/
structure Alert where
  campaign_id : Int
  issue : String
  severity : String
  recommendation : String
deriving DecidableEq, Repr

/-- The record returned by `overall_metrics` in src/app.py.  The three means are
`Option ℚ` because pandas `.mean()` of an empty column is NaN (no data). -/
structure OverallMetrics where
  avg_conversion : Option ℚ
  avg_cac : Option ℚ
  avg_roi : Option ℚ
  total_clicks : ℕ
deriving DecidableEq, Repr

/-- pandas `Series.sum()` over a rational column: a left fold of addition,
starting at 0 (so the empty column sums to 0). -/
def series_sum (xs : List ℚ) : ℚ :=
  xs.foldl (fun acc x => acc + x) 0

/-- pandas `Series.sum()` over the integer `clicks` column. -/
def series_sum_nat (xs : List ℕ) : ℕ :=
  xs.foldl (fun acc x => acc + x) 0

/-- pandas `Series.mean()`: sum divided by length, NaN (`none`) on an empty
column. -/
def series_mean (xs : List ℚ) : Option ℚ :=
  if xs.length = 0 then none
  else some (series_sum xs / (xs.length : ℚ))

/-- Insert into a sorted list of rationals (ascending). -/
def insertRat (x : ℚ) : List ℚ → List ℚ
  | [] => [x]
  | y :: ys => if x ≤ y then x :: y :: ys else y :: insertRat x ys

/-- Sort a list of rationals ascending, as pandas `quantile` sorts the column
values before interpolating. -/
def sortRat : List ℚ → List ℚ
  | [] => []
  | x :: xs => insertRat x (sortRat xs)

/-- pandas `Series.quantile(0.25)` with the default linear interpolation:
for `n + 1` sorted values the virtual position is `h = n / 4`; the result is
`s[⌊h⌋] + (h - ⌊h⌋) * (s[⌊h⌋ + 1] - s[⌊h⌋])`.  NaN (`none`) on an empty
column. -/
def quantile25 (xs : List ℚ) : Option ℚ :=
  if xs.length = 0 then none
  else
    let s := sortRat xs
    let n := xs.length - 1
    let j := n / 4
    let g : ℚ := ((n % 4 : ℕ) : ℚ) / 4
    some (s.getD j 0 + g * (s.getD (j + 1) 0 - s.getD j 0))

/-- `overall_metrics` from src/app.py lines 59-65: the four scalar aggregates
over the campaign dataframe. -/
def overall_metrics (df : List Campaign) : OverallMetrics :=
  { avg_conversion := series_mean (df.map (fun r => r.conversion_rate))
    avg_cac := series_mean (df.map (fun r => r.cac))
    avg_roi := series_mean (df.map (fun r => r.roi_percent))
    total_clicks := series_sum_nat (df.map (fun r => r.clicks)) }

/-- The alert dict appended for a row of `low_conv` in src/app.py
lines 78-85. -/
def mkLowAlert (row : Campaign) : Alert :=
  { campaign_id := row.campaign_id
    issue := "Low Conversion Rate"
    severity := if row.roi_percent < 0 then "High" else "Medium"
    recommendation := "Reallocate budget or test new creative/channel mix" }

/-- The alert dict appended for a row of `low_roi` in src/app.py
lines 87-93. -/
def mkNegAlert (row : Campaign) : Alert :=
  { campaign_id := row.campaign_id
    issue := "Negative ROI"
    severity := "Critical"
    recommendation := "Pause campaign immediately and investigate CAC drivers" }

/-- The mask `df[df["conversion_rate"] < df["conversion_rate"].quantile(0.25)]`
from src/app.py line 75.  On an empty dataframe the quantile is NaN and the
comparison is all-False, so the selection is empty. -/
def low_conv_filter (df : List Campaign) : List Campaign :=
  match quantile25 (df.map (fun r => r.conversion_rate)) with
  | none => []
  | some q => df.filter (fun r => decide (r.conversion_rate < q))

/-- The mask `df[df["roi_percent"] < 0]` from src/app.py line 76. -/
def low_roi_filter (df : List Campaign) : List Campaign :=
  df.filter (fun r => decide (r.roi_percent < 0))

/-- `campaign_alerts` from src/app.py lines 72-95: start from an empty list,
append one low-conversion alert per row of `low_conv` in row order, then one
negative-ROI alert per row of `low_roi` in row order. -/
def campaign_alerts (df : List Campaign) : List Alert :=
  let low_conv := low_conv_filter df
  let low_roi := low_roi_filter df
  let alerts : List Alert := []
  let alerts := low_conv.foldl (fun acc row => acc ++ [mkLowAlert row]) alerts
  let alerts := low_roi.foldl (fun acc row => acc ++ [mkNegAlert row]) alerts
  alerts

/-- State-threaded form of a dashboard interaction calling `campaign_alerts`:
the call returns the alert dataframe together with the campaign dataframe as it
stands after the call (the function only reads `df`; every pandas operation it
performs allocates a new frame). -/
def campaign_alerts_call (df : List Campaign) : List Alert × List Campaign :=
  (campaign_alerts df, df)

/-- State-threaded form of a dashboard interaction calling `overall_metrics`:
the call returns the metrics record together with the campaign dataframe as it
stands after the call. -/
def overall_metrics_call (df : List Campaign) : OverallMetrics × List Campaign :=
  (overall_metrics df, df)

/-- The message pandas raises for `.iloc[0]` on an empty frame. -/
def iloc_error_msg : String := "single positional indexer is out-of-bounds"

/-- pandas `Series.iloc[0]`: the first element, or an `IndexError` on an empty
series. -/
def iloc0 (xs : List ℚ) : Except String ℚ :=
  match xs with
  | [] => Except.error iloc_error_msg
  | x :: _ => Except.ok x

/-- What the Campaign Deep Dive page renders. -/
structure DeepDiveRender where
  conversion_metric : ℚ
  roi_metric : ℚ
  cac_metric : ℚ
  table : List Campaign
deriving DecidableEq, Repr

/-- The Campaign Deep Dive page, src/app.py lines 143-157: filter the campaign
dataframe to the selected id, then render three scalar metrics via `.iloc[0]`
on the filtered columns, then the filtered frame as a table.  An exception
from `.iloc[0]` aborts the render. -/
def deep_dive_page (campaign_df : List Campaign) (selected_campaign : Int) :
    Except String DeepDiveRender := do
  let df := campaign_df.filter (fun r => decide (r.campaign_id = selected_campaign))
  let conv ← iloc0 (df.map (fun r => r.conversion_rate))
  let roi ← iloc0 (df.map (fun r => r.roi_percent))
  let cac ← iloc0 (df.map (fun r => r.cac))
  pure { conversion_metric := conv, roi_metric := roi, cac_metric := cac, table := df }

/-! ### Helper lemmas -/

/-- Folding an append of one mapped element per row equals appending the mapped
list: the accumulation pattern of the two `for` loops in `campaign_alerts`. -/
theorem foldl_append_map {α β : Type} (f : α → β) :
    ∀ (l : List α) (init : List β),
      l.foldl (fun acc row => acc ++ [f row]) init = init ++ l.map f := by
  intro l
  induction l with
  | nil => intro init; simp
  | cons x xs ih => intro init; simp [List.foldl_cons, ih]

/-- `campaign_alerts` is the low-conversion alerts (in row order) followed by
the negative-ROI alerts (in row order). -/
theorem campaign_alerts_decomp (T : List Campaign) :
    campaign_alerts T =
      (low_conv_filter T).map mkLowAlert ++ (low_roi_filter T).map mkNegAlert := by
  show (low_roi_filter T).foldl (fun acc row => acc ++ [mkNegAlert row])
      ((low_conv_filter T).foldl (fun acc row => acc ++ [mkLowAlert row]) []) = _
  rw [foldl_append_map, foldl_append_map]
  simp

/-- Filtering a mapped list by a predicate the image always satisfies keeps
everything. -/
theorem filter_map_true {α β : Type} (f : α → β) (p : β → Bool)
    (h : ∀ a, p (f a) = true) : ∀ l : List α, (l.map f).filter p = l.map f := by
  intro l
  induction l with
  | nil => simp
  | cons x xs ih => simp [h x, ih]

/-- Filtering a mapped list by a predicate the image never satisfies keeps
nothing. -/
theorem filter_map_false {α β : Type} (f : α → β) (p : β → Bool)
    (h : ∀ a, p (f a) = false) : ∀ l : List α, (l.map f).filter p = [] := by
  intro l
  induction l with
  | nil => simp
  | cons x xs ih => simp [h x, ih]

/-- `low_conv_filter` unfolded: the rows strictly below the 25th-percentile
conversion rate, or nothing when the quantile is undefined. -/
theorem low_conv_filter_eq (T : List Campaign) :
    low_conv_filter T = T.filter (fun r =>
      match quantile25 (T.map (fun x => x.conversion_rate)) with
      | some q => decide (r.conversion_rate < q)
      | none => false) := by
  unfold low_conv_filter
  cases h : quantile25 (T.map fun x => x.conversion_rate) with
  | none => simp [h]
  | some q => simp [h]

/-- Membership in an insertion step. -/
theorem mem_insertRat (x a : ℚ) :
    ∀ l : List ℚ, a ∈ insertRat x l ↔ a = x ∨ a ∈ l := by
  intro l
  induction l with
  | nil => simp [insertRat]
  | cons y ys ih =>
    unfold insertRat
    split
    · simp
    · simp [ih]
      tauto

/-- Sorting preserves the elements. -/
theorem mem_sortRat (a : ℚ) : ∀ l : List ℚ, a ∈ sortRat l ↔ a ∈ l := by
  intro l
  induction l with
  | nil => simp [sortRat]
  | cons x xs ih => simp [sortRat, mem_insertRat, ih]

/-- Insertion grows the length by one. -/
theorem length_insertRat (x : ℚ) :
    ∀ l : List ℚ, (insertRat x l).length = l.length + 1 := by
  intro l
  induction l with
  | nil => rfl
  | cons y ys ih =>
    unfold insertRat
    split
    · rfl
    · simp [ih]

/-- Sorting preserves the length. -/
theorem length_sortRat : ∀ l : List ℚ, (sortRat l).length = l.length := by
  intro l
  induction l with
  | nil => rfl
  | cons x xs ih => simp [sortRat, length_insertRat, ih]

/-- In-bounds `getD` on a list whose elements are all `c` returns `c`. -/
theorem getD_all_eq (c d : ℚ) :
    ∀ (l : List ℚ) (i : ℕ), (∀ x ∈ l, x = c) → i < l.length → l.getD i d = c := by
  intro l
  induction l with
  | nil => intro i h hi; simp at hi
  | cons x xs ih =>
    intro i h hi
    cases i with
    | zero => simpa using h x (List.mem_cons_self x xs)
    | succ n =>
      have hstep := ih n (fun y hy => h y (List.mem_cons_of_mem _ hy)) (by simpa using hi)
      simpa using hstep

/-- The linear-interpolation 25th percentile of a non-empty constant column is
that constant. -/
theorem quantile25_const (c : ℚ) :
    ∀ xs : List ℚ, xs ≠ [] → (∀ x ∈ xs, x = c) → quantile25 xs = some c := by
  intro xs hne hall
  have hlen : ¬ xs.length = 0 := fun h => hne (List.length_eq_zero.mp h)
  have hs : ∀ x ∈ sortRat xs, x = c := fun x hx => hall x ((mem_sortRat x xs).mp hx)
  have hslen : (sortRat xs).length = xs.length := length_sortRat xs
  unfold quantile25
  rw [if_neg hlen]
  show some ((sortRat xs).getD ((xs.length - 1) / 4) 0 +
      (((xs.length - 1) % 4 : ℕ) : ℚ) / 4 *
        ((sortRat xs).getD ((xs.length - 1) / 4 + 1) 0 -
          (sortRat xs).getD ((xs.length - 1) / 4) 0)) = some c
  have hj : (xs.length - 1) / 4 < (sortRat xs).length := by
    rw [hslen]; omega
  have h1 : (sortRat xs).getD ((xs.length - 1) / 4) 0 = c :=
    getD_all_eq c 0 (sortRat xs) _ hs hj
  by_cases hm : (xs.length - 1) % 4 = 0
  · rw [h1, hm]
    norm_num
  · have hj1 : (xs.length - 1) / 4 + 1 < (sortRat xs).length := by
      rw [hslen]
      have hdiv : (xs.length - 1) / 4 < xs.length - 1 :=
        Nat.div_lt_self (by omega) (by omega)
      omega
    have h2 : (sortRat xs).getD ((xs.length - 1) / 4 + 1) 0 = c :=
      getD_all_eq c 0 (sortRat xs) _ hs hj1
    rw [h1, h2]
    norm_num

/-- Left fold of addition over naturals, from any accumulator. -/
theorem foldl_add_nat (xs : List ℕ) :
    ∀ a : ℕ, xs.foldl (fun acc x => acc + x) a = a + xs.sum := by
  induction xs with
  | nil => intro a; simp
  | cons x xs ih => intro a; simp [List.foldl_cons, ih, Nat.add_assoc]

/-- Left fold of addition over rationals, from any accumulator. -/
theorem foldl_add_rat (xs : List ℚ) :
    ∀ a : ℚ, xs.foldl (fun acc x => acc + x) a = a + xs.sum := by
  induction xs with
  | nil => intro a; simp
  | cons x xs ih => intro a; simp [List.foldl_cons, ih, add_assoc]

/-- `series_sum` is the list sum. -/
theorem series_sum_eq_sum (xs : List ℚ) : series_sum xs = xs.sum := by
  unfold series_sum
  rw [foldl_add_rat]
  simp

/-- `series_sum_nat` is the list sum. -/
theorem series_sum_nat_eq_sum (xs : List ℕ) : series_sum_nat xs = xs.sum := by
  unfold series_sum_nat
  rw [foldl_add_nat]
  simp

/-! ### Claim theorems -/

/-- C1: the spec requires that selecting a campaign identifier not present in
the campaign table on the Campaign Deep Dive view yields an empty table and no
error; the code instead raises a pandas IndexError, because after the filter
comes up empty it still evaluates `.iloc[0]` for the three scalar metrics.
Evaluated at the failing input: a one-row table with campaign_id 1 and
selection 2. -/
theorem deep_dive_unknown_id_raises :
    (∀ r ∈ ([⟨1, "social", 0, 20, -5, 100⟩] : List Campaign), r.campaign_id ≠ 2) ∧
    deep_dive_page [⟨1, "social", 0, 20, -5, 100⟩] 2 = Except.error iloc_error_msg := by
  exact ⟨by decide, rfl⟩

/-- C2: on the empty campaign table, `overall_metrics` returns the no-data
sentinel (pandas NaN, embedded as `none`) for each of the three means, and
total_clicks = 0. -/
theorem overall_metrics_empty_sentinels :
    overall_metrics [] =
      { avg_conversion := none, avg_cac := none, avg_roi := none, total_clicks := 0 } := rfl

/-- C3: the alerts of `campaign_alerts T` with issue "Negative ROI" are exactly
one alert per row of T with roi_percent < 0, in row order, built by
`mkNegAlert` (severity "Critical", the fixed recommendation); and no row with
roi_percent = 0 is selected by the negative-ROI mask. -/
theorem negative_roi_alerts_bijection (T : List Campaign) :
    (campaign_alerts T).filter (fun a => decide (a.issue = "Negative ROI")) =
      (T.filter (fun r => decide (r.roi_percent < 0))).map mkNegAlert ∧
    ∀ r ∈ T, r.roi_percent = 0 → r ∉ low_roi_filter T := by
  constructor
  · rw [campaign_alerts_decomp, List.filter_append,
      filter_map_false mkLowAlert _ (fun a => by simp [mkLowAlert]),
      filter_map_true mkNegAlert _ (fun a => by simp [mkNegAlert])]
    simp [low_roi_filter]
  · intro r _ hzero hmem
    have := (List.mem_filter.mp hmem).2
    simp [hzero] at this

/-- C4: the number of "Low Conversion Rate" alerts equals the number of rows
with conversion_rate strictly below the linear-interpolation 25th percentile of
the conversion_rate column, and those alerts are exactly `mkLowAlert` of those
rows (severity "High" when the row's roi_percent < 0 and "Medium" otherwise,
with the fixed recommendation). -/
theorem low_conversion_alert_count (T : List Campaign) :
    ((campaign_alerts T).filter (fun a => decide (a.issue = "Low Conversion Rate"))).length =
      (T.filter (fun r =>
        match quantile25 (T.map (fun x => x.conversion_rate)) with
        | some q => decide (r.conversion_rate < q)
        | none => false)).length ∧
    (campaign_alerts T).filter (fun a => decide (a.issue = "Low Conversion Rate")) =
      (low_conv_filter T).map mkLowAlert := by
  have hfilter :
      (campaign_alerts T).filter (fun a => decide (a.issue = "Low Conversion Rate")) =
        (low_conv_filter T).map mkLowAlert := by
    rw [campaign_alerts_decomp, List.filter_append,
      filter_map_true mkLowAlert _ (fun a => by simp [mkLowAlert]),
      filter_map_false mkNegAlert _ (fun a => by simp [mkNegAlert])]
    simp
  refine ⟨?_, hfilter⟩
  rw [hfilter, List.length_map, low_conv_filter_eq]

/-- C5: `campaign_alerts` lists the low-conversion alerts first, one per
selected row in input row order, then the negative-ROI alerts, one per selected
row in input row order; a row selected by both masks contributes one alert to
each block; and the empty table yields no alerts. -/
theorem alert_ordering_and_empty (T : List Campaign) :
    campaign_alerts T =
      (low_conv_filter T).map mkLowAlert ++ (low_roi_filter T).map mkNegAlert ∧
    (∀ r, r ∈ low_conv_filter T → r ∈ low_roi_filter T →
      mkLowAlert r ∈ campaign_alerts T ∧ mkNegAlert r ∈ campaign_alerts T) ∧
    campaign_alerts [] = [] := by
  refine ⟨campaign_alerts_decomp T, ?_, rfl⟩
  intro r hlow hroi
  rw [campaign_alerts_decomp]
  constructor
  · exact List.mem_append_left _ (List.mem_map_of_mem mkLowAlert hlow)
  · exact List.mem_append_right _ (List.mem_map_of_mem mkNegAlert hroi)

/-- C6: total_clicks is the sum of the clicks column, and 0 on the empty
table. -/
theorem total_clicks_sum (T : List Campaign) :
    (overall_metrics T).total_clicks = (T.map (fun r => r.clicks)).sum ∧
    (overall_metrics ([] : List Campaign)).total_clicks = 0 := by
  refine ⟨?_, rfl⟩
  show series_sum_nat (T.map (fun r => r.clicks)) = _
  exact series_sum_nat_eq_sum _

/-- C8: re-running `campaign_alerts` and `overall_metrics` on the table left by
a first call produces the same outputs as the first call: both are
deterministic pure functions of the table. -/
theorem flag_summarize_idempotent (T : List Campaign) :
    (campaign_alerts_call ((campaign_alerts_call T).2)).1 = (campaign_alerts_call T).1 ∧
    (overall_metrics_call ((overall_metrics_call T).2)).1 = (overall_metrics_call T).1 :=
  ⟨rfl, rfl⟩

/-- C9: neither `campaign_alerts` nor `overall_metrics` changes the campaign
table: the table after each call is the input table. -/
theorem flag_summarize_frame (T : List Campaign) :
    (campaign_alerts_call T).2 = T ∧ (overall_metrics_call T).2 = T :=
  ⟨rfl, rfl⟩

/-- C7: on a non-empty table whose conversion rates all lie in [0,1], the mean
conversion rate lies in [0,1]; on the empty table it is the no-data
sentinel. -/
theorem avg_conversion_bounds (T : List Campaign) (hne : T ≠ [])
    (hbound : ∀ r ∈ T, 0 ≤ r.conversion_rate ∧ r.conversion_rate ≤ 1) :
    (∃ x : ℚ, (overall_metrics T).avg_conversion = some x ∧ 0 ≤ x ∧ x ≤ 1) ∧
    (overall_metrics ([] : List Campaign)).avg_conversion = none := by
  refine ⟨?_, rfl⟩
  have hxlen : (T.map (fun r => r.conversion_rate)).length = T.length :=
    List.length_map _ _
  have hTlen : T.length ≠ 0 := fun h => hne (List.length_eq_zero.mp h)
  have hpos : (0 : ℚ) < (T.length : ℚ) := by
    exact_mod_cast Nat.pos_of_ne_zero hTlen
  refine ⟨(T.map (fun r => r.conversion_rate)).sum / (T.length : ℚ), ?_, ?_, ?_⟩
  · show series_mean (T.map (fun r => r.conversion_rate)) = _
    unfold series_mean
    rw [if_neg (by rw [hxlen]; exact hTlen), series_sum_eq_sum, hxlen]
  · apply div_nonneg _ (le_of_lt hpos)
    apply List.sum_nonneg
    intro a ha
    obtain ⟨r, hr, rfl⟩ := List.mem_map.mp ha
    exact (hbound r hr).1
  · rw [div_le_one hpos]
    calc (T.map (fun r => r.conversion_rate)).sum
        ≤ (T.map (fun r => r.conversion_rate)).length • (1 : ℚ) := by
          apply List.sum_le_card_nsmul
          intro a ha
          obtain ⟨r, hr, rfl⟩ := List.mem_map.mp ha
          exact (hbound r hr).2
      _ = (T.length : ℚ) := by rw [nsmul_eq_mul, mul_one, hxlen]

/-- C7 witness: the bounds at the concrete one-row table. -/
theorem avg_conversion_bounds_witness :
    ([⟨1, "social", 0, 20, -5, 100⟩] : List Campaign) ≠ [] ∧
    (∀ r ∈ ([⟨1, "social", 0, 20, -5, 100⟩] : List Campaign),
      0 ≤ r.conversion_rate ∧ r.conversion_rate ≤ 1) ∧
    ((∃ x : ℚ,
        (overall_metrics [⟨1, "social", 0, 20, -5, 100⟩]).avg_conversion = some x ∧
        0 ≤ x ∧ x ≤ 1) ∧
     (overall_metrics ([] : List Campaign)).avg_conversion = none) :=
  ⟨by decide, by decide,
    avg_conversion_bounds [⟨1, "social", 0, 20, -5, 100⟩] (by decide) (by decide)⟩

/-- C10: on a non-empty table whose rows all share one conversion rate, the
25th percentile is that common value, and the strict comparison selects no row,
so no "Low Conversion Rate" alert is emitted. -/
theorem constant_conversion_no_low_alerts (T : List Campaign) (c : ℚ)
    (hne : T ≠ []) (hconst : ∀ r ∈ T, r.conversion_rate = c) :
    (campaign_alerts T).filter (fun a => decide (a.issue = "Low Conversion Rate")) = [] ∧
    quantile25 (T.map (fun r => r.conversion_rate)) = some c := by
  have hq : quantile25 (T.map (fun r => r.conversion_rate)) = some c := by
    apply quantile25_const
    · intro h
      exact hne (List.map_eq_nil_iff.mp h)
    · intro x hx
      obtain ⟨r, hr, rfl⟩ := List.mem_map.mp hx
      exact hconst r hr
  have hlc : low_conv_filter T = [] := by
    unfold low_conv_filter
    rw [hq]
    show T.filter (fun r => decide (r.conversion_rate < c)) = []
    rw [List.filter_eq_nil_iff]
    intro r hr
    simp [hconst r hr]
  refine ⟨?_, hq⟩
  rw [campaign_alerts_decomp, hlc]
  simp only [List.map_nil, List.nil_append]
  exact filter_map_false mkNegAlert _ (fun a => by simp [mkNegAlert]) _

/-- C10 witness: a two-row table with a common conversion rate yields no
low-conversion alert and the quantile is the common value. -/
theorem constant_conversion_no_low_alerts_witness :
    ([⟨1, "a", 0, 20, -5, 100⟩, ⟨2, "b", 0, 10, 20, 200⟩] : List Campaign) ≠ [] ∧
    (∀ r ∈ ([⟨1, "a", 0, 20, -5, 100⟩, ⟨2, "b", 0, 10, 20, 200⟩] : List Campaign),
      r.conversion_rate = 0) ∧
    ((campaign_alerts [⟨1, "a", 0, 20, -5, 100⟩, ⟨2, "b", 0, 10, 20, 200⟩]).filter
        (fun a => decide (a.issue = "Low Conversion Rate")) = [] ∧
     quantile25 (([⟨1, "a", 0, 20, -5, 100⟩, ⟨2, "b", 0, 10, 20, 200⟩] : List Campaign).map
        (fun r => r.conversion_rate)) = some 0) :=
  ⟨by decide, by decide,
    constant_conversion_no_low_alerts
      [⟨1, "a", 0, 20, -5, 100⟩, ⟨2, "b", 0, 10, 20, 200⟩] 0 (by decide) (by decide)⟩
